import Mathlib

/-!
# Verification of the Torch operator-splitting time integrator

Shallow embedding of the Torch core (composite stepper `Torch::fullStep`,
`Torch::calculateTimeStep`, `Torch::checkValues`, and the
`Thermodynamics` integrator) over exact rational arithmetic, together
with theorems settling the specification claims.

Conventions:
* C `double` arithmetic is modelled by `ℚ`; division by zero follows
  Lean's junk-value convention (`x / 0 = 0`) and every theorem that
  depends on a quotient carries the non-vanishing hypotheses.
* The transcendental heating/cooling rate formulas (which use `exp`,
  `log`, `pow` and spline tables) are modelled as opaque function
  parameters collected in `ThermoPhys`; no claim under verification
  depends on their values, only on how `Thermodynamics` plumbs them.
* Single-rank execution is modelled: `MPIW::minimum` is the identity
  and no partition exchange happens.
-/

namespace Torch

/-! ## IEEE-double observables used by `Torch::checkValues`

`checkValues` only inspects doubles through three predicates:
`x != x || std::isinf(x)`, `x == 0`, and `std::abs(x) > 1e50`.  We model
a double as either a finite rational or one of the three non-finite
values, and give those predicates their IEEE semantics. -/

inductive FP where
  | fin (q : ℚ)
  | nan
  | posInf
  | negInf
deriving DecidableEq

/-- `x != x || std::isinf(x)`: true exactly on NaN and the infinities. -/
def FP.isNanOrInf : FP → Bool
  | .fin _ => false
  | _ => true

/-- IEEE `x == 0.0`: only a finite zero compares equal to zero. -/
def FP.eqZero : FP → Bool
  | .fin q => q == 0
  | _ => false

/-- IEEE `std::abs(x) > c` for a finite positive threshold `c`:
false on NaN, true on the infinities. -/
def FP.absGt (x : FP) (c : ℚ) : Bool :=
  match x with
  | .fin q => decide (c < |q|)
  | .nan => false
  | .posInf => true
  | .negInf => true

/-- Number of components of the per-cell state vectors (`UID::N`):
`{DEN, PRE, VEL0, VEL1, VEL2, HII, ADV}`. -/
abbrev UID.N : ℕ := 7

def UID.DEN : Fin UID.N := 0
def UID.PRE : Fin UID.N := 1
def UID.VEL0 : Fin UID.N := 2
def UID.VEL1 : Fin UID.N := 3
def UID.VEL2 : Fin UID.N := 4
def UID.HII : Fin UID.N := 5
def UID.ADV : Fin UID.N := 6

/-- The raw per-cell data inspected by `Torch::checkValues`:
the conservative vector `U` and the primitive vector `Q`, as doubles. -/
structure ChkCell where
  U : Fin UID.N → FP
  Q : Fin UID.N → FP

/-- The error test of `Torch::checkValues`: some component of `U` is
NaN or infinite, or `Q[DEN] == 0` or `Q[PRE] == 0`.  (The source
evaluates the `Q` tests inside the loop over `U` components; the
disjunction over all loop iterations is the same predicate.) -/
def cellBad (c : ChkCell) : Bool :=
  (List.finRange UID.N).any fun i =>
    (c.U i).isNanOrInf || (c.Q UID.DEN).eqZero || (c.Q UID.PRE).eqZero

/-- The cells dumped by `Torch::checkValues` on error: those with
`std::abs(Q[VEL+0]) > 1e50 || std::abs(Q[VEL+1]) > 1e50`. -/
def dumpedCells (cells : List ChkCell) : List ChkCell :=
  cells.filter fun c => (c.Q UID.VEL0).absGt (10 ^ 50) || (c.Q UID.VEL1).absGt (10 ^ 50)

/-- `Torch::checkValues(componentname)`: scan all grid cells for the
error condition; on error, throw a `std::runtime_error` carrying the
component name and the dump of the offending cells (modelled as the
`Except.error` payload).  Otherwise return normally. -/
def checkValues (componentname : String) (cells : List ChkCell) :
    Except (String × List ChkCell) Unit :=
  if cells.any cellBad then
    .error (componentname, dumpedCells cells)
  else
    .ok ()

/-- Modelled from the spec: the program's process-exit behaviour lives in
`main`, which is not part of the supplied sources.  Spec §6: "exit 0 on
success, non-zero on fatal"; the uncaught `std::runtime_error` thrown by
`Torch::checkValues` unwinds out of `Torch::run` and terminates the
process with a non-zero status. -/
def exitCode (r : Except (String × List ChkCell) Unit) : ℕ :=
  match r with
  | .ok _ => 0
  | .error _ => 1

/-! ## `Torch::calculateTimeStep`

The per-run state consulted by `calculateTimeStep`: configuration
flags, the `static bool first_time` bootstrap flag, and the quit flag.
The component timestep requests `dt_hydro`, `dt_rad`, `dt_thermo`
(each the result of the corresponding integrator's
`calculateTimeStep(dt_max, fluid)`) are passed as inputs.
`loggedSmallDeltas` models the Logger having received the fatal
"Integration deltas are too small." message. -/

structure TorchState where
  dt_max : ℚ
  tmax : ℚ
  radiation_on : Bool
  cooling_on : Bool
  debug : Bool
  first_time : Bool
  m_isQuitting : Bool
  loggedSmallDeltas : Bool
deriving DecidableEq

/-- `Torch::calculateTimeStep` (single rank: `MPIW::minimum` is the
identity).  Returns the chosen `dt` and the updated state.  The guard
in the source reads `thyd <= 1.0e-6 || thyd <= 1.0e-6 || thyd <= 1.0e-6`
— the hydro ratio tested three times. -/
def calculateTimeStep (t : TorchState) (dt_hydro dt_rad_in dt_thermo_in : ℚ) :
    ℚ × TorchState :=
  if t.first_time then
    (t.dt_max * (1 / 10 ^ 20), { t with first_time := false })
  else
    let dt_rad := if t.radiation_on then dt_rad_in else dt_hydro
    let dt_thermo := if t.cooling_on then dt_thermo_in else dt_hydro
    let dt := min (min dt_hydro dt_rad) dt_thermo
    let thyd := 100 * dt_hydro / t.tmax
    let fire := t.debug &&
      (decide (thyd ≤ 1 / 10 ^ 6) || decide (thyd ≤ 1 / 10 ^ 6) ||
        decide (thyd ≤ 1 / 10 ^ 6))
    (dt, { t with
            m_isQuitting := t.m_isQuitting || fire,
            loggedSmallDeltas := t.loggedSmallDeltas || fire })

/-- The components pushed onto `activeComponents` in `Torch::run`:
HYDRO always, THERMO if `cooling_on`, RAD if `radiation_on`. -/
def activeDts (t : TorchState) (dt_hydro dt_rad dt_thermo : ℚ) : List ℚ :=
  [dt_hydro] ++ (if t.cooling_on then [dt_thermo] else []) ++
    (if t.radiation_on then [dt_rad] else [])

/-! ## `Torch::fullStep`: the sub-step schedule

`fullStep` either runs the hydro predictor–corrector (when exactly one
component is active) or a rotated palindromic sweep of `subStep` calls.
We model the sequence of `subStep` invocations it issues: each carries
the sub-step `dt`, the component drawn from `activeComponents`, and the
`hasCalculatedHeatFlux` flag (true skips the Q-from-U recomputation in
`subStep`). -/

inductive ComponentID where
  | HYDRO
  | THERMO
  | RAD
deriving DecidableEq

instance : Inhabited ComponentID := ⟨ComponentID.HYDRO⟩

structure SubStepCall where
  dt : ℚ
  comp : ComponentID
  hasCalculatedHeatFlux : Bool
deriving DecidableEq

instance : Inhabited SubStepCall := ⟨⟨0, default, false⟩⟩

inductive StepPlan where
  | hydroOnly (dt : ℚ)
  | split (subs : List SubStepCall)
deriving DecidableEq

/-- The forward loop of `Torch::fullStep`
(`for (int i = 0; i < ncomps; ++i)`): sub-step `i` carries weight `1`
on the last iteration and `1/2` before, visits
`activeComponents[(i + stepCounter) % ncomps]`, and passes
`hasCalculatedHeatFlux` only at `i = 0`. -/
def forwardCalls (active : List ComponentID) (sc : ℕ) (dt : ℚ) :
    List SubStepCall :=
  (List.range active.length).map fun i =>
    { dt := (if i == active.length - 1 then (1 : ℚ) else 1 / 2) * dt,
      comp := active.getD ((i + sc) % active.length) default,
      hasCalculatedHeatFlux := i == 0 }

/-- The reverse loop of `Torch::fullStep`
(`for (int i = ncomps-2; i >= 0; --i)`): weight `dt/2`, flag false. -/
def backwardCalls (active : List ComponentID) (sc : ℕ) (dt : ℚ) :
    List SubStepCall :=
  ((List.range (active.length - 1)).reverse).map fun i =>
    { dt := dt / 2,
      comp := active.getD ((i + sc) % active.length) default,
      hasCalculatedHeatFlux := false }

/-- The control skeleton of `Torch::fullStep` after `dt` has been
chosen: dispatch on `ncomps = activeComponents.size()` (a single
component takes the `hydroStep` predictor–corrector path); otherwise
advance `stepCounter` mod `ncomps` and issue the forward then the
reverse loop of `subStep` calls.  Returns the plan and the updated
`stepCounter`. -/
def fullStepPlan (active : List ComponentID) (stepCounter : ℕ) (dt : ℚ) :
    StepPlan × ℕ :=
  if active.length == 1 then
    (.hydroOnly dt, stepCounter)
  else
    let sc := (stepCounter + 1) % active.length
    (.split (forwardCalls active sc dt ++ backwardCalls active sc dt), sc)

end Torch

namespace Thermo

/-! ## The `Thermodynamics` integrator

Per-cell state (`GridCell` fields touched by `Thermodynamics`), the
physical constants and rate formulas (`ThermoPhys`), and the per-cell
bodies of `preTimeStepCalculations`, `integrate`, `updateColDen` and
`updateSourceTerms`. -/

/-- Indices of the per-mechanism heating array `H` (`HID`), as used by
`Thermodynamics::fillHeatingArrays` and `integrate`. -/
inductive HID where
  | TOT
  | FUVH
  | IRH
  | CRH
  | IMLC
  | NMLC
  | CEHI
  | CIEC
  | NMC
  | RHII
  | EUVH
deriving DecidableEq

/-- The `GridCell` fields read or written by the `Thermodynamics`
integrator, with doubles modelled by `ℚ`.  `neighbourIDs` keeps the
source's `int` sentinel convention (`-1` marks an absent neighbour). -/
structure GridCell where
  Q_DEN : ℚ
  Q_PRE : ℚ
  Q_HII : ℚ
  Q_ADV : ℚ
  U_PRE : ℚ
  UDOT_PRE : ℚ
  T_COL_DEN : ℚ
  T_DCOL_DEN : ℚ
  T_RATE : ℚ
  T_HEAT : ℚ
  H : HID → ℚ
  T_min : ℚ
  heatCapacity : ℚ
  ds : ℚ
  xc : ℕ → ℚ
  neighbourIDs : Fin 4 → ℤ
  neighbourWeights : Fin 4 → ℚ

/-- Constants consumed by `Thermodynamics`, plus the transcendental
heating/cooling rate formulas modelled as opaque function parameters:
`imlc` = `ionisedMetalLineCooling(ne, T)`,
`nmlc` = `neutralMetalLineCooling(ne, nn, T)`,
`cxhi` = `collisionalExcitationHI(nH, HIIFRAC, T)`,
`ciec` = `collisionalIonisationEquilibriumCooling(ne, T)`,
`nmc` = `neutralMolecularLineCooling(nH, HIIFRAC, T)`,
`fuvh` = `farUltraVioletHeating(nH, Av_FUV, F_FUV)`,
`irh` = `infraRedHeating(nH, Av_FUV, F_FUV)`,
`crh` = `cosmicRayHeating(nH)`.
`heatCapacity` on a cell stands for `heatCapacityRatio` (γ). -/
structure ThermoPhys where
  thermoHII_Switch : ℚ
  heatingAmplification : ℚ
  massFractionH : ℚ
  hydrogenMass : ℚ
  specificGasConstant : ℚ
  pfloor : ℚ
  dustExtinctionCrossSection : ℚ
  pi : ℚ
  isSubcycling : Bool
  imlc : ℚ → ℚ → ℚ
  nmlc : ℚ → ℚ → ℚ → ℚ
  cxhi : ℚ → ℚ → ℚ → ℚ
  ciec : ℚ → ℚ → ℚ
  nmc : ℚ → ℚ → ℚ → ℚ
  fuvh : ℚ → ℚ → ℚ → ℚ
  irh : ℚ → ℚ → ℚ → ℚ
  crh : ℚ → ℚ

/-- `Thermodynamics::softLanding(rate, T, T_min)`. -/
def softLanding (rate T T_min : ℚ) : ℚ :=
  if rate < 0 then
    if T ≤ T_min then 0
    else if T ≤ T_min + 200 then rate * (T - T_min) / 200
    else rate
  else rate

/-- `Thermodynamics::fluxFUV(Q_FUV, dist_sqrd)` with
`1.2e7 = 12000000`. -/
def fluxFUV (ph : ThermoPhys) (Q_FUV dist_sqrd : ℚ) : ℚ :=
  if dist_sqrd ≠ 0 then Q_FUV / (12000000 * 4 * ph.pi * dist_sqrd) else 0

/-- Modelled from the spec: `Fluid::calcTemperature(HII, PRE, DEN)` is
not among the supplied sources; spec §4.3 gives
`T = PRE / (mu_inv * R_specific * DEN)` with
`mu_inv = X_H * (HII + 1) + (1 - X_H) * 1/4`. -/
def calcTemperature (ph : ThermoPhys) (hii pre den : ℚ) : ℚ :=
  pre / ((ph.massFractionH * (hii + 1) + (1 - ph.massFractionH) * (1 / 4)) *
    ph.specificGasConstant * den)

/-- `mu_inv` as computed inside `Thermodynamics::integrate`. -/
def muInv (ph : ThermoPhys) (cell : GridCell) : ℚ :=
  ph.massFractionH * (cell.Q_HII + 1) + (1 - ph.massFractionH) * (1 / 4)

/-- Squared distance to the star accumulated over the first `nd`
dimensions, as in `preTimeStepCalculations`:
`(xc[id]-star.xc[id])^2 * dx[id]^2` summed. -/
def distSqrd (nd : ℕ) (xc xs dx : ℕ → ℚ) : ℚ :=
  (List.range nd).foldl
    (fun a i => a + (xc i - xs i) * (xc i - xs i) * dx i * dx i) 0

/-- The per-cell body of `Thermodynamics::preTimeStepCalculations`
(the loop over the `CausalNonWind` ordering).  `starOn`, `photonRate`,
`starXC`, `dx`, `nd` carry the star and grid data the body reads.
When `Q[ADV] < thermoHII_Switch` only `T[RATE]` is zeroed and the body
`continue`s. -/
def preTimeStepCell (ph : ThermoPhys) (starOn : Bool) (photonRate : ℚ)
    (starXC dx : ℕ → ℚ) (nd : ℕ) (cell : GridCell) : GridCell :=
  if cell.Q_ADV < ph.thermoHII_Switch then
    { cell with T_RATE := 0 }
  else
    let nH := ph.massFractionH * cell.Q_DEN / ph.hydrogenMass
    let hiifrac := cell.Q_HII
    let ne := nH * hiifrac
    let nn := nH * (1 - hiifrac)
    let T := calcTemperature ph cell.Q_HII cell.Q_PRE cell.Q_DEN
    let rsqrd := if starOn then distSqrd nd cell.xc starXC dx else 0
    let F_FUV := if starOn then fluxFUV ph ((1 / 2) * photonRate) rsqrd else 0
    let tau := cell.T_COL_DEN
    let Av_FUV := (1086 / 1000) * ph.dustExtinctionCrossSection * tau
    let heat := ph.fuvh nH Av_FUV F_FUV + ph.irh nH Av_FUV F_FUV + ph.crh nH
    let rate := heat - ph.imlc ne T - ph.nmlc ne nn T - ph.cxhi nH hiifrac T -
      ph.ciec ne T - ph.nmc nH hiifrac T
    let rate2 := softLanding rate T cell.T_min
    { cell with T_HEAT := heat, T_RATE := ph.heatingAmplification * rate2 }

/-- The local thermal timestep of `Thermodynamics::integrate`:
`dti = std::abs(0.10 * U[PRE] / T[RATE])`.  (In IEEE arithmetic a zero
`T[RATE]` yields `+inf`; theorems about the sub-cycling branch assume
`T[RATE] ≠ 0`.) -/
def thermoDti (cell : GridCell) : ℚ :=
  |(1 / 10 : ℚ) * cell.U_PRE / cell.T_RATE|

/-- The pressure/temperature floor fix repeated inside
`Thermodynamics::integrate`:
`if (pressure < pfloor || subcycleT < T_min) { pf = max(T_min*temp2pre, pfloor); subcycleT = pf*pre2temp; pressure = pf; }`. -/
def clampPressure (ph : ThermoPhys) (tmin temp2pre pre2temp pressure subcycleT : ℚ) :
    ℚ × ℚ :=
  if pressure < ph.pfloor ∨ subcycleT < tmin then
    let pf := max (tmin * temp2pre) ph.pfloor
    (pf, pf * pre2temp)
  else
    (pressure, subcycleT)

/-- The C cast `(int)x`: truncation toward zero. -/
def cIntCast (q : ℚ) : ℤ :=
  if 0 ≤ q then ⌊q⌋ else ⌈q⌉

/-- The sub-cycle step count computed by `Thermodynamics::integrate`:
`int nsteps = dtdti - (int)dtdti > 0 ? (int)(dtdti + 1.0) : (int)(dtdti + 0.5)`. -/
def cNSteps (dtdti : ℚ) : ℤ :=
  if dtdti - (cIntCast dtdti : ℚ) > 0 then cIntCast (dtdti + 1)
  else cIntCast (dtdti + 1 / 2)

/-- The micro-step size assigned by `Thermodynamics::integrate` after
choosing the step count: `dti = dt / nsteps`. -/
def microStepSize (dt dti : ℚ) : ℚ :=
  dt / (cNSteps (dt / dti) : ℚ)

/-- The body of the sub-cycling loop in `Thermodynamics::integrate`,
acting on `(pressure, subcycleT)`: re-evaluate the five cooling terms
at the current sub-cycle temperature, reuse the frozen heating term
(`heat = cell.T[HEAT]`), soft-land and amplify, advance the pressure by
`subcycleRate * rate2dpre`, and re-apply the floor fix. -/
def subcycleStep (ph : ThermoPhys) (ne nn nH hiifrac tmin temp2pre pre2temp
    rate2dpre heat : ℚ) : ℚ × ℚ → ℚ × ℚ :=
  fun pt =>
    let subcycleT := pt.2
    let r := heat - ph.imlc ne subcycleT - ph.nmlc ne nn subcycleT -
      ph.cxhi nH hiifrac subcycleT - ph.ciec ne subcycleT -
      ph.nmc nH hiifrac subcycleT
    let r2 := ph.heatingAmplification * softLanding r subcycleT tmin
    let pressure := pt.1 + r2 * rate2dpre
    let subcycleT2 := pressure * pre2temp
    clampPressure ph tmin temp2pre pre2temp pressure subcycleT2

/-- The per-cell body of `Thermodynamics::integrate` (the loop over the
`CausalNonWind` ordering, reached only when sub-cycling is enabled).
When `Q[ADV] < thermoHII_Switch`, every `H[i]` and `T[RATE]` are zeroed
and the body `continue`s.  Otherwise one step of size
`min(dt, dti) * (gamma - 1)` is applied and floored; if `dt > dti` the
step count is chosen by `cNSteps`, the (subsequently unused) local
`dti` is reassigned `dt / nsteps` (see `microStepSize`), and
`nsteps - 1` further `subcycleStep`s run.  Finally
`T[RATE] = (pressure - Q[PRE]) * dpre2rate` and `H[TOT]` gets the same
value. -/
def integrateCell (ph : ThermoPhys) (dt : ℚ) (cell : GridCell) : GridCell :=
  if cell.Q_ADV < ph.thermoHII_Switch then
    { cell with H := fun _ => 0, T_RATE := 0 }
  else
    let nH := ph.massFractionH * cell.Q_DEN / ph.hydrogenMass
    let hiifrac := cell.Q_HII
    let ne := nH * hiifrac
    let nn := nH * (1 - hiifrac)
    let dti := thermoDti cell
    let m := muInv ph cell
    let pre2temp := 1 / (m * ph.specificGasConstant * cell.Q_DEN)
    let temp2pre := m * ph.specificGasConstant * cell.Q_DEN
    let rate2dpre := min dt dti * (cell.heatCapacity - 1)
    let dpre2rate := 1 / rate2dpre
    let p0 := cell.Q_PRE + cell.T_RATE * rate2dpre
    let t0 := p0 * pre2temp
    let pt1 := clampPressure ph cell.T_min temp2pre pre2temp p0 t0
    let ptFinal :=
      if dt > dti then
        let nsteps := cNSteps (dt / dti)
        (subcycleStep ph ne nn nH hiifrac cell.T_min temp2pre pre2temp
          rate2dpre cell.T_HEAT)^[(nsteps - 1).toNat] pt1
      else pt1
    let rate := (ptFinal.1 - cell.Q_PRE) * dpre2rate
    { cell with T_RATE := rate, H := Function.update cell.H HID.TOT rate }

/-- Follows the claim's words (C6): with sub-cycling engaged the step
count is `round_up(dt / dti)` and exactly `n_steps - 1` additional
micro-steps run after the first, each re-evaluating the five cooling
terms at the current sub-cycle temperature with the frozen heating term
`T[HEAT]`. -/
def specSubcyclePT (ph : ThermoPhys) (dt : ℚ) (cell : GridCell) : ℚ × ℚ :=
  let nH := ph.massFractionH * cell.Q_DEN / ph.hydrogenMass
  let hiifrac := cell.Q_HII
  let ne := nH * hiifrac
  let nn := nH * (1 - hiifrac)
  let dti := thermoDti cell
  let m := muInv ph cell
  let pre2temp := 1 / (m * ph.specificGasConstant * cell.Q_DEN)
  let temp2pre := m * ph.specificGasConstant * cell.Q_DEN
  let rate2dpre := min dt dti * (cell.heatCapacity - 1)
  let p0 := cell.Q_PRE + cell.T_RATE * rate2dpre
  let t0 := p0 * pre2temp
  let pt1 := clampPressure ph cell.T_min temp2pre pre2temp p0 t0
  (subcycleStep ph ne nn nH hiifrac cell.T_min temp2pre pre2temp
    rate2dpre cell.T_HEAT)^[(⌈dt / dti⌉ - 1).toNat] pt1

/-- `Thermodynamics::updateColDen(cell, fluid, dist2)`.  `getCell`
resolves neighbour indices into the grid's cell store. -/
def updateColDen (ph : ThermoPhys) (getCell : ℕ → GridCell) (cell : GridCell)
    (dist2 : ℚ) : GridCell :=
  if dist2 > (95 / 100) * (95 / 100) then
    let colden : Fin 4 → ℚ := fun i =>
      if cell.neighbourIDs i ≠ -1 then
        (getCell (cell.neighbourIDs i).toNat).T_COL_DEN +
          (getCell (cell.neighbourIDs i).toNat).T_DCOL_DEN
      else 0
    let w_raga : Fin 4 → ℚ := fun i =>
      if colden i = 0 then 0 else cell.neighbourWeights i / colden i
    let sum_w := w_raga 0 + w_raga 1 + w_raga 2 + w_raga 3
    let newcolden :=
      if sum_w ≠ 0 then
        (w_raga 0 / sum_w) * colden 0 + (w_raga 1 / sum_w) * colden 1 +
          (w_raga 2 / sum_w) * colden 2 + (w_raga 3 / sum_w) * colden 3
      else 0
    { cell with
        T_COL_DEN := newcolden,
        T_DCOL_DEN := cell.Q_DEN / ph.hydrogenMass * cell.ds }
  else
    { cell with
        T_COL_DEN := 0,
        T_DCOL_DEN := cell.Q_DEN / ph.hydrogenMass * cell.ds }

/-- The contribution of one neighbour in `updateColDen`:
`COL_DEN + DCOL_DEN` of the neighbour, or `0` if absent. -/
def ragaColden (getCell : ℕ → GridCell) (cell : GridCell) (i : Fin 4) : ℚ :=
  if cell.neighbourIDs i ≠ -1 then
    (getCell (cell.neighbourIDs i).toNat).T_COL_DEN +
      (getCell (cell.neighbourIDs i).toNat).T_DCOL_DEN
  else 0

/-- The raw Raga weight of one neighbour in `updateColDen`:
`neighbourWeight_i / colden_i`, or `0` when `colden_i = 0`. -/
def ragaWeight (getCell : ℕ → GridCell) (cell : GridCell) (i : Fin 4) : ℚ :=
  if ragaColden getCell cell i = 0 then 0
  else cell.neighbourWeights i / ragaColden getCell cell i

/-- The per-cell body of `Thermodynamics::updateSourceTerms`: fold the
thermal rate into `UDOT[PRE]` and zero `T[RATE]` and `T[HEAT]`. -/
def sourceTermCell (c : GridCell) : GridCell :=
  { c with
      UDOT_PRE := c.UDOT_PRE + c.T_RATE,
      T_RATE := 0,
      T_HEAT := 0 }

/-- Apply a per-cell update at each index of an ordering, in order
(the `for (int cellID : grid.getOrderedIndices(...))` pattern). -/
def overCells (f : GridCell → GridCell) (cells : ℕ → GridCell)
    (idxs : List ℕ) : ℕ → GridCell :=
  idxs.foldl (fun cs i => Function.update cs i (f (cs i))) cells

/-- `Thermodynamics::updateSourceTerms(dt, fluid)`: iterate
`sourceTermCell` over the `CausalNonWind` ordering. -/
def updateSourceTerms (cells : ℕ → GridCell) (causalNonWind : List ℕ) :
    ℕ → GridCell :=
  overCells sourceTermCell cells causalNonWind

end Thermo

/-! ## Claim theorems -/

/-- A state with both optional components active, debug on, past the
bootstrap call, not yet quitting; `tmax = dt_max = 1`. -/
def t1 : Torch.TorchState :=
  { dt_max := 1, tmax := 1, radiation_on := true, cooling_on := true,
    debug := true, first_time := false, m_isQuitting := false,
    loggedSmallDeltas := false }

/-- C9: on its first invocation `Torch::calculateTimeStep` returns
`dt_max * 1e-20` regardless of the component timesteps (which the
bootstrap branch never consults), and clears the `first_time` flag so
that every subsequent invocation returns the minimum of the active
components' timesteps (hydro always; thermo if `cooling_on`; rad if
`radiation_on`). -/
theorem calculateTimeStep_bootstrap_then_min (t : Torch.TorchState)
    (dh dr dth : ℚ) :
    (Torch.calculateTimeStep t dh dr dth).1 =
      (if t.first_time then t.dt_max * (1 / 10 ^ 20)
       else (Torch.activeDts t dh dr dth).foldl min dh) ∧
    (Torch.calculateTimeStep t dh dr dth).2.first_time = false := by
  rcases t with ⟨dm, tm, ron, con, dbg, ft, q, lg⟩
  cases ft
  · cases ron
    · cases con
      · simp [Torch.calculateTimeStep, Torch.activeDts]
      · simp [Torch.calculateTimeStep, Torch.activeDts]
    · cases con
      · simp [Torch.calculateTimeStep, Torch.activeDts]
      · simp [Torch.calculateTimeStep, Torch.activeDts]
        rw [min_right_comm]
  · simp [Torch.calculateTimeStep]

/-- C1 counterexample: with debug on, `dt_hydro/tmax = 1e-7 < 1e-6` and
`dt_rad/tmax = 1e-12 < 1e-6`, yet `calculateTimeStep` does not set the
quit flag (the guard compares the percentage `100*dt_hydro/tmax`
against `1e-6`, so the effective hydro threshold is `dt/tmax ≤ 1e-8`,
and the radiation/thermodynamics ratios are computed but never
tested). -/
theorem calculateTimeStep_guard_counterexample :
    t1.debug = true ∧
    (1 / 10 ^ 7 : ℚ) / t1.tmax < 1 / 10 ^ 6 ∧
    (1 / 10 ^ 12 : ℚ) / t1.tmax < 1 / 10 ^ 6 ∧
    (Torch.calculateTimeStep t1 (1 / 10 ^ 7) (1 / 10 ^ 12)
      (1 / 10 ^ 7)).2.m_isQuitting = false := by
  refine ⟨rfl, by norm_num [t1], by norm_num [t1], ?_⟩
  simp [Torch.calculateTimeStep, t1]
  norm_num

/-- C1 (amended): past the bootstrap call, the debug guard of
`Torch::calculateTimeStep` tests only the hydro ratio
`thyd = 100 * dt_hydro / tmax` (three times): the quit flag ends up set,
and the fatal "Integration deltas are too small." error logged, exactly
when debug is on and `thyd ≤ 1e-6`; the radiation and thermodynamics
ratios are never consulted, and with debug off the state is untouched
and the step is taken regardless. -/
theorem calculateTimeStep_guard (t : Torch.TorchState) (dh dr dth : ℚ)
    (h : t.first_time = false) :
    ((Torch.calculateTimeStep t dh dr dth).2.m_isQuitting =
      (t.m_isQuitting || (t.debug && decide (100 * dh / t.tmax ≤ 1 / 10 ^ 6)))) ∧
    ((Torch.calculateTimeStep t dh dr dth).2.loggedSmallDeltas =
      (t.loggedSmallDeltas ||
        (t.debug && decide (100 * dh / t.tmax ≤ 1 / 10 ^ 6)))) ∧
    (t.debug = false →
      (Torch.calculateTimeStep t dh dr dth).2.m_isQuitting = t.m_isQuitting) := by
  refine ⟨?_, ?_, ?_⟩ <;> simp [Torch.calculateTimeStep, h]
  intro hdbg
  simp [hdbg]

/-- C1 witness: at `dt_hydro/tmax = 1e-9` (so `thyd = 1e-7 ≤ 1e-6`) the
amended guard fires and sets the quit flag. -/
theorem calculateTimeStep_guard_witness :
    (Torch.calculateTimeStep t1 (1 / 10 ^ 9) 1 1).2.m_isQuitting = true :=
  ((calculateTimeStep_guard t1 (1 / 10 ^ 9) 1 1 rfl).1).trans (by norm_num [t1])

/-- C2: whenever some grid cell holds a NaN or infinite conservative
component `U[i]`, or has `Q[DEN] == 0` or `Q[PRE] == 0`,
`Torch::checkValues` throws the fatal error carrying the component name
and the dump of the offending cells (those with
`|Q[VEL0]| > 1e50 || |Q[VEL1]| > 1e50`), and the resulting process exit
status is non-zero. -/
theorem checkValues_fatal (name : String) (cells : List Torch.ChkCell)
    (h : cells.any Torch.cellBad = true) :
    Torch.checkValues name cells =
      .error (name, Torch.dumpedCells cells) ∧
    Torch.exitCode (Torch.checkValues name cells) ≠ 0 := by
  refine ⟨?_, ?_⟩
  · simp [Torch.checkValues, h]
  · simp [Torch.checkValues, h, Torch.exitCode]

/-- A one-cell grid whose conservative state is all-NaN and whose
primitive velocities overflow the dump threshold. -/
def c2cells : List Torch.ChkCell :=
  [⟨fun _ => Torch.FP.nan, fun _ => Torch.FP.fin (10 ^ 60)⟩]

/-- C2 witness: on a concrete broken cell, `checkValues` fails fatally
with that cell dumped and a non-zero exit status. -/
theorem checkValues_fatal_witness :
    Torch.checkValues "Thermodynamics after" c2cells =
      .error ("Thermodynamics after", Torch.dumpedCells c2cells) ∧
    Torch.exitCode (Torch.checkValues "Thermodynamics after" c2cells) ≠ 0 :=
  checkValues_fatal "Thermodynamics after" c2cells (by decide)


/-- Mapping a function that is constant below `n` over `range n` yields
a replicated list. -/
theorem mapRange_eq_replicate {α : Type} (n : ℕ) (f : ℕ → α) (a : α)
    (hf : ∀ i < n, f i = a) : (List.range n).map f = List.replicate n a := by
  rw [List.eq_replicate_iff]
  refine ⟨by simp, ?_⟩
  intro b hb
  rcases List.mem_map.1 hb with ⟨i, hi, rfl⟩
  exact hf i (List.mem_range.1 hi)

/-- Indexing into a `map` over `range`. -/
theorem mapRange_getD {α : Type} (n i : ℕ) (f : ℕ → α) (d : α) (hi : i < n) :
    ((List.range n).map f).getD i d = f i := by
  rw [List.getD_eq_getElem _ _ (by simpa using hi)]
  simp

/-- Indexing into a `map` over a reversed `range`. -/
theorem mapRangeReverse_getD {α : Type} (m j : ℕ) (f : ℕ → α) (d : α)
    (hj : j < m) :
    (((List.range m).reverse).map f).getD j d = f (m - 1 - j) := by
  rw [List.getD_eq_getElem _ _ (by simpa using hj)]
  rw [List.getElem_map, List.getElem_reverse]
  simp

theorem forwardCalls_length (active : List Torch.ComponentID) (sc : ℕ)
    (dt : ℚ) : (Torch.forwardCalls active sc dt).length = active.length := by
  simp [Torch.forwardCalls]

theorem backwardCalls_length (active : List Torch.ComponentID) (sc : ℕ)
    (dt : ℚ) :
    (Torch.backwardCalls active sc dt).length = active.length - 1 := by
  simp [Torch.backwardCalls]

theorem forwardCalls_dts (active : List Torch.ComponentID) (sc : ℕ) (dt : ℚ)
    (h : 1 ≤ active.length) :
    (Torch.forwardCalls active sc dt).map (fun s => s.dt) =
      List.replicate (active.length - 1) (dt / 2) ++ [dt] := by
  unfold Torch.forwardCalls
  rw [List.map_map]
  have hsplit : active.length = (active.length - 1) + 1 := by omega
  rw [hsplit, List.range_succ, List.map_append]
  congr 1
  · apply mapRange_eq_replicate
    intro i hi
    have hbeq : (i == active.length - 1) = false := by
      simp only [beq_eq_false_iff_ne]
      omega
    simp only [Function.comp_apply, ← hsplit, hbeq, Bool.false_eq_true,
      if_false]
    ring
  · simp [← hsplit]

theorem backwardCalls_dts (active : List Torch.ComponentID) (sc : ℕ)
    (dt : ℚ) :
    (Torch.backwardCalls active sc dt).map (fun s => s.dt) =
      List.replicate (active.length - 1) (dt / 2) := by
  unfold Torch.backwardCalls
  rw [List.map_map, List.eq_replicate_iff]
  refine ⟨by simp, ?_⟩
  intro b hb
  rcases List.mem_map.1 hb with ⟨i, _, rfl⟩
  rfl

theorem forwardCalls_flags (active : List Torch.ComponentID) (sc : ℕ)
    (dt : ℚ) (h : 1 ≤ active.length) :
    (Torch.forwardCalls active sc dt).map (fun s => s.hasCalculatedHeatFlux) =
      true :: List.replicate (active.length - 1) false := by
  unfold Torch.forwardCalls
  rw [List.map_map]
  have hsplit : active.length = (active.length - 1) + 1 := by omega
  rw [hsplit, List.range_succ_eq_map]
  simp only [List.map_cons, List.map_map]
  congr 1
  apply mapRange_eq_replicate
  intro i _
  simp [Nat.succ_ne_zero]

theorem backwardCalls_flags (active : List Torch.ComponentID) (sc : ℕ)
    (dt : ℚ) :
    (Torch.backwardCalls active sc dt).map (fun s => s.hasCalculatedHeatFlux) =
      List.replicate (active.length - 1) false := by
  unfold Torch.backwardCalls
  rw [List.map_map, List.eq_replicate_iff]
  refine ⟨by simp, ?_⟩
  intro b hb
  rcases List.mem_map.1 hb with ⟨i, _, rfl⟩
  rfl

/-- C4: with `n ≥ 2` active components, `Torch::fullStep` advances
`stepCounter` to `(stepCounter + 1) % n` and issues exactly `2n - 1`
sub-steps: the weights form the palindrome
`[dt/2, …, dt/2, dt, dt/2, …, dt/2]` (the full step as the last forward
sub-step), only the very first sub-step passes
`hasCalculatedHeatFlux = true` (skipping the Q-from-U recomputation in
`subStep`), the forward sub-step at trace position `i < n` visits
`active[(i + stepCounter) mod n]` (with the advanced counter), and the
reverse sub-step at trace position `2n - 2 - i` (for `i < n - 1`)
revisits the same component. -/
theorem fullStepPlan_palindrome (active : List Torch.ComponentID) (k : ℕ)
    (dt : ℚ) (h2 : 2 ≤ active.length) :
    (Torch.fullStepPlan active k dt).2 = (k + 1) % active.length ∧
    ∃ subs,
      (Torch.fullStepPlan active k dt).1 = Torch.StepPlan.split subs ∧
      subs.length = 2 * active.length - 1 ∧
      subs.map (fun s => s.dt) =
        List.replicate (active.length - 1) (dt / 2) ++ dt ::
          List.replicate (active.length - 1) (dt / 2) ∧
      subs.map (fun s => s.hasCalculatedHeatFlux) =
        true :: List.replicate (2 * active.length - 2) false ∧
      (∀ i < active.length,
        (subs.getD i default).comp =
          active.getD ((i + (k + 1) % active.length) % active.length)
            default) ∧
      (∀ i < active.length - 1,
        (subs.getD (2 * active.length - 2 - i) default).comp =
          active.getD ((i + (k + 1) % active.length) % active.length)
            default) := by
  have hne : (active.length == 1) = false := by
    simp only [beq_eq_false_iff_ne]
    omega
  set sc := (k + 1) % active.length with hsc
  refine ⟨by simp [Torch.fullStepPlan, hne], ?_⟩
  refine ⟨Torch.forwardCalls active sc dt ++ Torch.backwardCalls active sc dt,
    by simp [Torch.fullStepPlan, hne], ?_, ?_, ?_, ?_, ?_⟩
  · rw [List.length_append, forwardCalls_length, backwardCalls_length]
    omega
  · rw [List.map_append, forwardCalls_dts active sc dt (by omega),
      backwardCalls_dts]
    simp
  · rw [List.map_append, forwardCalls_flags active sc dt (by omega),
      backwardCalls_flags]
    have h22 : 2 * active.length - 2 =
        (active.length - 1) + (active.length - 1) := by
      omega
    rw [h22, List.replicate_add]
    simp
  · intro i hi
    rw [List.getD_append _ _ _ _ (by rw [forwardCalls_length]; omega)]
    unfold Torch.forwardCalls
    rw [mapRange_getD _ _ _ _ hi]
  · intro i hi
    rw [List.getD_append_right _ _ _ _ (by rw [forwardCalls_length]; omega)]
    rw [forwardCalls_length]
    unfold Torch.backwardCalls
    have hidx : 2 * active.length - 2 - i - active.length =
        active.length - 2 - i := by omega
    rw [hidx]
    rw [mapRangeReverse_getD _ _ _ _ (by omega)]
    have hi2 : active.length - 1 - 1 - (active.length - 2 - i) = i := by omega
    rw [hi2]

/-- C4 witness: with the two active components `[HYDRO, THERMO]`,
counter `0` and `dt = 1`, the plan is a split of `2*2 - 1 = 3` sub-steps
and the counter advances to `1`. -/
theorem fullStepPlan_palindrome_witness :
    (Torch.fullStepPlan [Torch.ComponentID.HYDRO, Torch.ComponentID.THERMO]
      0 1).2 = 1 ∧
    ∃ subs,
      (Torch.fullStepPlan [Torch.ComponentID.HYDRO, Torch.ComponentID.THERMO]
        0 1).1 = Torch.StepPlan.split subs ∧ subs.length = 3 := by
  have h := fullStepPlan_palindrome
    [Torch.ComponentID.HYDRO, Torch.ComponentID.THERMO] 0 1 (by decide)
  refine ⟨h.1.trans (by decide), ?_⟩
  obtain ⟨subs, hs, hlen, _⟩ := h.2
  exact ⟨subs, hs, hlen.trans (by decide)⟩

/-- C8: softLanding leaves non-negative rates unchanged; for negative
rates it returns 0 at or below the floor, scales linearly within 200 K
of the floor, and is the identity above; at T = T_min + 100 the applied
rate is half the original. -/
theorem softLanding_spec (rate T T_min : ℚ) :
    (0 ≤ rate → Thermo.softLanding rate T T_min = rate) ∧
    (rate < 0 → T ≤ T_min → Thermo.softLanding rate T T_min = 0) ∧
    (rate < 0 → T_min < T → T ≤ T_min + 200 →
      Thermo.softLanding rate T T_min = rate * (T - T_min) / 200) ∧
    (rate < 0 → T_min + 200 < T → Thermo.softLanding rate T T_min = rate) ∧
    (rate < 0 → Thermo.softLanding rate (T_min + 100) T_min = rate * (1 / 2)) := by
  unfold Thermo.softLanding
  refine ⟨?_, ?_, ?_, ?_, ?_⟩
  · intro h
    rw [if_neg (not_lt.2 h)]
  · intro h ht
    rw [if_pos h, if_pos ht]
  · intro h ht1 ht2
    rw [if_pos h, if_neg (not_le.2 ht1), if_pos ht2]
  · intro h ht
    rw [if_pos h, if_neg (not_le.2 (by linarith)), if_neg (not_le.2 ht)]
  · intro h
    rw [if_pos h, if_neg (not_le.2 (by linarith)), if_pos (by linarith)]
    ring

/-- C8 witness. -/
theorem softLanding_spec_witness :
    Thermo.softLanding (-2) 50 0 = -2 * (50 - 0) / 200 ∧
    Thermo.softLanding (-2) (0 + 100) 0 = -2 * (1 / 2) :=
  ⟨(softLanding_spec (-2) 50 0).2.2.1 (by norm_num) (by norm_num) (by norm_num),
   (softLanding_spec (-2) 0 0).2.2.2.2 (by norm_num)⟩

/-- Pointwise action of the ordered per-cell update loop, for an
ordering without duplicate indices. -/
theorem overCells_apply (f : Thermo.GridCell → Thermo.GridCell)
    (cells : ℕ → Thermo.GridCell) (l : List ℕ) (hl : l.Nodup) (j : ℕ) :
    Thermo.overCells f cells l j = if j ∈ l then f (cells j) else cells j := by
  induction l generalizing cells with
  | nil => simp [Thermo.overCells]
  | cons a t ih =>
      rcases List.nodup_cons.1 hl with ⟨ha, ht⟩
      have hstep : Thermo.overCells f cells (a :: t) j =
          Thermo.overCells f (Function.update cells a (f (cells a))) t j := rfl
      rw [hstep, ih (Function.update cells a (f (cells a))) ht]
      by_cases hj : j ∈ t
      · have hne : j ≠ a := fun h => ha (h ▸ hj)
        simp [hj, Function.update_noteq hne, List.mem_cons]
      · by_cases hja : j = a
        · subst hja
          simp [hj, Function.update_same]
        · simp [hj, hja, Function.update_noteq hja]

/-- C10: after `Thermodynamics::updateSourceTerms`, every cell of the
`CausalNonWind` ordering has its pre-call `T[RATE]` folded into
`UDOT[PRE]` exactly once, its `T[RATE]` and `T[HEAT]` zeroed and all
other fields untouched; cells outside the ordering are untouched. -/
theorem updateSourceTerms_spec (cells : ℕ → Thermo.GridCell) (l : List ℕ)
    (hl : l.Nodup) :
    (∀ i ∈ l, Thermo.updateSourceTerms cells l i =
      { cells i with
          UDOT_PRE := (cells i).UDOT_PRE + (cells i).T_RATE,
          T_RATE := 0,
          T_HEAT := 0 }) ∧
    (∀ i, i ∉ l → Thermo.updateSourceTerms cells l i = cells i) := by
  constructor
  · intro i hi
    rw [Thermo.updateSourceTerms, overCells_apply _ _ _ hl, if_pos hi]
    rfl
  · intro i hi
    rw [Thermo.updateSourceTerms, overCells_apply _ _ _ hl, if_neg hi]

/-- A concrete cell used to instantiate the thermodynamics theorems. -/
def sampleCell : Thermo.GridCell :=
  { Q_DEN := 1, Q_PRE := 2, Q_HII := 0, Q_ADV := 0, U_PRE := 3, UDOT_PRE := 5,
    T_COL_DEN := 0, T_DCOL_DEN := 0, T_RATE := 3, T_HEAT := 7,
    H := fun _ => 1, T_min := 100, heatCapacity := 5 / 3, ds := 1,
    xc := fun _ => 0, neighbourIDs := fun _ => -1,
    neighbourWeights := fun _ => 0 }

/-- Concrete physics with vanishing opaque rate functions. -/
def samplePhys : Thermo.ThermoPhys :=
  { thermoHII_Switch := 1, heatingAmplification := 1, massFractionH := 7 / 10,
    hydrogenMass := 1, specificGasConstant := 1, pfloor := 1 / 1000,
    dustExtinctionCrossSection := 1, pi := 355 / 113, isSubcycling := true,
    imlc := fun _ _ => 0, nmlc := fun _ _ _ => 0, cxhi := fun _ _ _ => 0,
    ciec := fun _ _ => 0, nmc := fun _ _ _ => 0, fuvh := fun _ _ _ => 0,
    irh := fun _ _ _ => 0, crh := fun _ => 0 }

/-- C10 witness. -/
theorem updateSourceTerms_spec_witness :
    Thermo.updateSourceTerms (fun _ => sampleCell) [0] 0 =
      { sampleCell with
          UDOT_PRE := sampleCell.UDOT_PRE + sampleCell.T_RATE,
          T_RATE := 0,
          T_HEAT := 0 } ∧
    Thermo.updateSourceTerms (fun _ => sampleCell) [0] 1 = sampleCell :=
  ⟨(updateSourceTerms_spec (fun _ => sampleCell) [0] (by simp)).1 0 (by simp),
   (updateSourceTerms_spec (fun _ => sampleCell) [0] (by simp)).2 1 (by simp)⟩

/-- C3 counterexample: a `CausalNonWind` cell below the
`thermoHII_Switch` threshold whose heating array is nonzero keeps it
unchanged across `preTimeStepCalculations` (only `integrate` zeroes
`H`). -/
theorem preTimeStep_H_counterexample :
    sampleCell.Q_ADV < samplePhys.thermoHII_Switch ∧
    (Thermo.preTimeStepCell samplePhys false 0 (fun _ => 0) (fun _ => 0) 3
      sampleCell).H Thermo.HID.TOT = 1 ∧
    (1 : ℚ) ≠ 0 := by
  refine ⟨by norm_num [sampleCell, samplePhys], ?_, by norm_num⟩
  have h : sampleCell.Q_ADV < samplePhys.thermoHII_Switch := by
    norm_num [sampleCell, samplePhys]
  rw [Thermo.preTimeStepCell, if_pos h]
  simp [sampleCell]

/-- C3 (amended): for a cell with `Q[ADV] < thermoHII_Switch`,
`preTimeStepCalculations` writes `T[RATE] = 0`, leaves every other
field (including `H`) unchanged, and skips rate evaluation;
`integrate` (whose body runs only when sub-cycling is enabled) writes
`T[RATE] = 0`, zeroes every `H[i]`, leaves everything else unchanged,
and skips rate evaluation. -/
theorem thermoSwitch_skip (ph : Thermo.ThermoPhys) (starOn : Bool)
    (photonRate : ℚ) (starXC dx : ℕ → ℚ) (nd : ℕ) (dt : ℚ)
    (cell : Thermo.GridCell) (h : cell.Q_ADV < ph.thermoHII_Switch) :
    Thermo.preTimeStepCell ph starOn photonRate starXC dx nd cell =
      { cell with T_RATE := 0 } ∧
    Thermo.integrateCell ph dt cell =
      { cell with H := fun _ => 0, T_RATE := 0 } ∧
    (Thermo.preTimeStepCell ph starOn photonRate starXC dx nd cell).T_RATE
      = 0 ∧
    (Thermo.integrateCell ph dt cell).T_RATE = 0 ∧
    (∀ i, (Thermo.integrateCell ph dt cell).H i = 0) := by
  rw [Thermo.preTimeStepCell, if_pos h, Thermo.integrateCell, if_pos h]
  exact ⟨rfl, rfl, rfl, rfl, fun i => rfl⟩

/-- C3 witness. -/
theorem thermoSwitch_skip_witness :
    Thermo.preTimeStepCell samplePhys true 1 (fun _ => 1) (fun _ => 1) 3
      sampleCell = { sampleCell with T_RATE := 0 } ∧
    Thermo.integrateCell samplePhys 1 sampleCell =
      { sampleCell with H := fun _ => 0, T_RATE := 0 } :=
  ⟨(thermoSwitch_skip samplePhys true 1 (fun _ => 1) (fun _ => 1) 3 1
      sampleCell (by norm_num [sampleCell, samplePhys])).1,
   (thermoSwitch_skip samplePhys true 1 (fun _ => 1) (fun _ => 1) 3 1
      sampleCell (by norm_num [sampleCell, samplePhys])).2.1⟩

/-- C5: `updateColDen` away from the source (`dist2 > 0.95²`) writes
the renormalised Raga-weighted sum of the upwind neighbours'
`COL_DEN + DCOL_DEN`, the renormalised weights summing to `1` whenever
the raw weights do not all vanish; at the source (`dist2 ≤ 0.95²`) it
writes `COL_DEN = 0`; in both cases
`DCOL_DEN = (Q[DEN]/hydrogenMass) * ds`. -/
theorem colden_sum_eq (w c : Fin 4 → ℚ) :
    (if w 0 + w 1 + w 2 + w 3 ≠ 0 then
       w 0 / (w 0 + w 1 + w 2 + w 3) * c 0 +
         w 1 / (w 0 + w 1 + w 2 + w 3) * c 1 +
         w 2 / (w 0 + w 1 + w 2 + w 3) * c 2 +
         w 3 / (w 0 + w 1 + w 2 + w 3) * c 3
     else 0) =
      ∑ i : Fin 4, (w i / ∑ j : Fin 4, w j) * c i := by
  rw [Fin.sum_univ_four, Fin.sum_univ_four]
  by_cases hs : w 0 + w 1 + w 2 + w 3 ≠ 0
  · rw [if_pos hs]
  · rw [if_neg hs]
    push_neg at hs
    rw [hs]
    simp

theorem updateColDen_spec (ph : Thermo.ThermoPhys)
    (getCell : ℕ → Thermo.GridCell) (cell : Thermo.GridCell) (dist2 : ℚ) :
    (dist2 > (95 / 100) * (95 / 100) →
      (Thermo.updateColDen ph getCell cell dist2).T_COL_DEN =
        ∑ i : Fin 4,
          (Thermo.ragaWeight getCell cell i /
            ∑ j : Fin 4, Thermo.ragaWeight getCell cell j) *
            Thermo.ragaColden getCell cell i ∧
      ((∑ j : Fin 4, Thermo.ragaWeight getCell cell j) ≠ 0 →
        (∑ i : Fin 4, Thermo.ragaWeight getCell cell i /
          ∑ j : Fin 4, Thermo.ragaWeight getCell cell j) = 1)) ∧
    (¬ dist2 > (95 / 100) * (95 / 100) →
      (Thermo.updateColDen ph getCell cell dist2).T_COL_DEN = 0) ∧
    (Thermo.updateColDen ph getCell cell dist2).T_DCOL_DEN =
      cell.Q_DEN / ph.hydrogenMass * cell.ds := by
  by_cases hd : dist2 > (95 / 100) * (95 / 100)
  · rw [Thermo.updateColDen, if_pos hd]
    refine ⟨fun _ => ⟨?_, fun hs => ?_⟩, fun hcon => absurd hd hcon, rfl⟩
    · exact colden_sum_eq (Thermo.ragaWeight getCell cell)
        (Thermo.ragaColden getCell cell)
    · rw [← Finset.sum_div, div_self hs]
  · rw [Thermo.updateColDen, if_neg hd]
    exact ⟨fun hcon => absurd hcon hd, fun _ => rfl, rfl⟩

theorem clampPressure_fst (ph : Thermo.ThermoPhys) (tmin M p : ℚ)
    (hM : 0 < M) :
    (Thermo.clampPressure ph tmin M (1 / M) p (p * (1 / M))).1 =
      max p (max (tmin * M) ph.pfloor) := by
  unfold Thermo.clampPressure
  by_cases hcond : p < ph.pfloor ∨ p * (1 / M) < tmin
  · rw [if_pos hcond]
    have hlt : p < max (tmin * M) ph.pfloor := by
      rcases hcond with h | h
      · exact lt_of_lt_of_le h (le_max_right _ _)
      · refine lt_of_lt_of_le ?_ (le_max_left _ _)
        have h2 : p / M < tmin := by
          rw [div_eq_mul_inv, ← one_div]
          exact h
        exact (div_lt_iff₀ hM).1 h2
    exact (max_eq_right hlt.le).symm
  · rw [if_neg hcond]
    push_neg at hcond
    obtain ⟨h1, h2⟩ := hcond
    have hp2 : tmin * M ≤ p := by
      have h3 : tmin ≤ p / M := by
        rw [div_eq_mul_inv, ← one_div]
        exact h2
      exact (le_div_iff₀ hM).1 h3
    exact (max_eq_left (max_le hp2 h1)).symm

theorem integrateCell_single_step (ph : Thermo.ThermoPhys)
    (cell : Thermo.GridCell) (dt : ℚ)
    (hadv : ¬ cell.Q_ADV < ph.thermoHII_Switch)
    (hdt : dt ≤ Thermo.thermoDti cell)
    (hM : 0 < Thermo.muInv ph cell * ph.specificGasConstant * cell.Q_DEN) :
    (Thermo.integrateCell ph dt cell).T_RATE =
      (max (cell.Q_PRE + cell.T_RATE * ((cell.heatCapacity - 1) * dt))
        (max (cell.T_min * (Thermo.muInv ph cell * ph.specificGasConstant *
          cell.Q_DEN)) ph.pfloor) - cell.Q_PRE) /
        ((cell.heatCapacity - 1) * dt) ∧
    max (cell.T_min * (Thermo.muInv ph cell * ph.specificGasConstant *
        cell.Q_DEN)) ph.pfloor ≤
      max (cell.Q_PRE + cell.T_RATE * ((cell.heatCapacity - 1) * dt))
        (max (cell.T_min * (Thermo.muInv ph cell * ph.specificGasConstant *
          cell.Q_DEN)) ph.pfloor) := by
  refine ⟨?_, le_max_right _ _⟩
  have hngt : ¬ dt > Thermo.thermoDti cell := not_lt.2 hdt
  simp only [Thermo.integrateCell, hadv, if_false, hngt,
    min_eq_left hdt]
  rw [clampPressure_fst ph cell.T_min
    (Thermo.muInv ph cell * ph.specificGasConstant * cell.Q_DEN)
    (cell.Q_PRE + cell.T_RATE *
      (dt * (cell.heatCapacity - 1))) hM]
  rw [mul_comm dt (cell.heatCapacity - 1), ← div_eq_mul_one_div]

/-- A `CausalNonWind` cell above the switch with `dt ≤ dti`. -/
def c7cell : Thermo.GridCell :=
  { sampleCell with Q_ADV := 2, T_RATE := 1 / 10, T_min := 1 }

/-- C7 witness. -/
theorem integrateCell_single_step_witness :
    (Thermo.integrateCell samplePhys 1 c7cell).T_RATE = 1 / 10 := by
  have h := integrateCell_single_step samplePhys c7cell 1
    (by norm_num [c7cell, sampleCell, samplePhys])
    (by norm_num [Thermo.thermoDti, c7cell, sampleCell])
    (by norm_num [Thermo.muInv, c7cell, sampleCell, samplePhys])
  rw [h.1]
  norm_num [Thermo.muInv, c7cell, sampleCell, samplePhys, max_def]

theorem cIntCast_of_nonneg (q : ℚ) (h : 0 ≤ q) : Thermo.cIntCast q = ⌊q⌋ :=
  if_pos h

/-- The C step-count expression computes the ceiling on positive
arguments. -/
theorem cNSteps_eq_ceil (x : ℚ) (hx : 0 < x) : Thermo.cNSteps x = ⌈x⌉ := by
  unfold Thermo.cNSteps
  rw [cIntCast_of_nonneg x hx.le]
  by_cases h : x - (⌊x⌋ : ℚ) > 0
  · rw [if_pos h, cIntCast_of_nonneg _ (by linarith)]
    have h1 : (⌊x⌋ : ℚ) < x := by linarith
    have hceil : ⌈x⌉ = ⌊x⌋ + 1 := by
      have hub : ⌈x⌉ ≤ ⌊x⌋ + 1 := Int.ceil_le_floor_add_one x
      have hlb : ⌊x⌋ < ⌈x⌉ := Int.lt_ceil.2 h1
      omega
    rw [hceil, show (1 : ℚ) = ((1 : ℤ) : ℚ) from by norm_num,
      Int.floor_add_int]
  · rw [if_neg h, cIntCast_of_nonneg _ (by linarith)]
    push_neg at h
    have hfr : (⌊x⌋ : ℚ) = x := le_antisymm (Int.floor_le x) (by linarith)
    have hceil : ⌈x⌉ = ⌊x⌋ := by
      conv_lhs => rw [← hfr]
      exact Int.ceil_intCast _
    rw [hceil, show x + 1 / 2 = (⌊x⌋ : ℚ) + 1 / 2 from by rw [hfr],
      Int.floor_int_add]
    norm_num

theorem integrateCell_subcycle (ph : Thermo.ThermoPhys)
    (cell : Thermo.GridCell) (dt : ℚ)
    (hadv : ¬ cell.Q_ADV < ph.thermoHII_Switch)
    (hdti : 0 < Thermo.thermoDti cell)
    (hlt : Thermo.thermoDti cell < dt) :
    Thermo.cNSteps (dt / Thermo.thermoDti cell) =
      ⌈dt / Thermo.thermoDti cell⌉ ∧
    Thermo.microStepSize dt (Thermo.thermoDti cell) =
      dt / ((⌈dt / Thermo.thermoDti cell⌉ : ℤ) : ℚ) ∧
    Thermo.integrateCell ph dt cell =
      (let pt := Thermo.specSubcyclePT ph dt cell
       let rate := (pt.1 - cell.Q_PRE) *
         (1 / (min dt (Thermo.thermoDti cell) * (cell.heatCapacity - 1)))
       { cell with T_RATE := rate,
                   H := Function.update cell.H Thermo.HID.TOT rate }) := by
  have hx : 0 < dt / Thermo.thermoDti cell :=
    div_pos (lt_trans hdti hlt) hdti
  have hA := cNSteps_eq_ceil _ hx
  refine ⟨hA, ?_, ?_⟩
  · unfold Thermo.microStepSize
    rw [hA]
  · have hgt : dt > Thermo.thermoDti cell := hlt
    simp only [Thermo.integrateCell, Thermo.specSubcyclePT, hadv, if_false,
      hgt, if_true, hA]

/-- A `CausalNonWind` cell above the switch with `dt > dti`:
`dti = |0.1 * 10 / 1| = 1` and `dt = 5/2` force `⌈5/2⌉ = 3` sub-cycle
steps. -/
def c6cell : Thermo.GridCell :=
  { sampleCell with Q_ADV := 2, T_RATE := 1, U_PRE := 10, T_min := 1 }

/-- C6 witness: three sub-cycle steps, micro-step size `5/6`, and the
two additional micro-steps (with zero cooling and frozen heating `7`)
drive the effective rate to `15`. -/
theorem integrateCell_subcycle_witness :
    Thermo.cNSteps ((5 / 2 : ℚ) / Thermo.thermoDti c6cell) = 3 ∧
    Thermo.microStepSize (5 / 2) (Thermo.thermoDti c6cell) = 5 / 6 ∧
    (Thermo.integrateCell samplePhys (5 / 2) c6cell).T_RATE = 15 := by
  have hdtieval : Thermo.thermoDti c6cell = 1 := by
    norm_num [Thermo.thermoDti, c6cell, sampleCell]
  have hceil : (⌈(5 / 2 : ℚ)⌉ : ℤ) = 3 := by
    rw [Int.ceil_eq_iff]
    norm_num
  have h := integrateCell_subcycle samplePhys c6cell (5 / 2)
    (by norm_num [c6cell, sampleCell, samplePhys])
    (by rw [hdtieval]; norm_num)
    (by rw [hdtieval]; norm_num)
  refine ⟨?_, ?_, ?_⟩
  · rw [h.1, hdtieval, div_one]
    exact hceil
  · rw [h.2.1, hdtieval, div_one, hceil]
    norm_num
  · rw [congrArg Thermo.GridCell.T_RATE h.2.2]
    simp only [Thermo.specSubcyclePT]
    rw [hdtieval, div_one, hceil]
    rw [show ((3 : ℤ) - 1).toNat = 1 + 1 from rfl, Function.iterate_add_apply]
    simp only [Function.iterate_one]
    norm_num [Thermo.subcycleStep, Thermo.clampPressure, Thermo.softLanding,
      Thermo.muInv, Thermo.thermoDti, c6cell, sampleCell, samplePhys,
      max_def, min_def]

/-- Neighbour store for the column-density witness: every cell carries
`COL_DEN + DCOL_DEN = 3`. -/
def gC5 : ℕ → Thermo.GridCell := fun _ =>
  { sampleCell with T_COL_DEN := 2, T_DCOL_DEN := 1 }

/-- A cell with exactly one upwind neighbour (index 0, weight 1). -/
def cellC5 : Thermo.GridCell :=
  { sampleCell with
      neighbourIDs := fun i => if i = 0 then 0 else -1,
      neighbourWeights := fun i => if i = 0 then 1 else 0 }

/-- C5 witness: one call away from the source and one at the source. -/
theorem updateColDen_spec_witness :
    (Thermo.updateColDen samplePhys gC5 cellC5 1).T_COL_DEN =
      ∑ i : Fin 4,
        (Thermo.ragaWeight gC5 cellC5 i /
          ∑ j : Fin 4, Thermo.ragaWeight gC5 cellC5 j) *
          Thermo.ragaColden gC5 cellC5 i ∧
    (Thermo.updateColDen samplePhys gC5 cellC5 (1 / 2)).T_COL_DEN = 0 ∧
    (Thermo.updateColDen samplePhys gC5 cellC5 (1 / 2)).T_DCOL_DEN =
      cellC5.Q_DEN / samplePhys.hydrogenMass * cellC5.ds :=
  ⟨((updateColDen_spec samplePhys gC5 cellC5 1).1 (by norm_num)).1,
   (updateColDen_spec samplePhys gC5 cellC5 (1 / 2)).2.1 (by norm_num),
   (updateColDen_spec samplePhys gC5 cellC5 (1 / 2)).2.2⟩
